import Mathlib

/-
Verification of the Monte Carlo simulation engine in `mcs.py`
(class MonteCarloSimulator).

Shallow embedding conventions:
* Python numeric values are modelled as rationals (ℚ); `None` as `Option.none`.
* A Python dict is an association list with unique keys (insertion order
  preserved, as in Python 3.7+); `dict.get` returns `Option`.
* numpy's `default_rng()` generator is modelled as an abstract entropy source:
  a counter plus a function giving, for each draw index, family name and
  parameter list, the drawn value.  Each successful draw advances the counter.
  Parameter-value validation (e.g. negative scale) is not modelled; the claims
  under verification only depend on draws happening versus raising on a
  missing (`None`) parameter or on a bad keyword argument.
* Fallible Python code (code that can raise) returns `Except String`; a
  `try`/`except` block is a `match` on that result.
-/

namespace MCS

/-- Values that can be stored in the bag-of-variables dict: numbers, and the
builtins module object that CPython `eval` inserts under the key
`__builtins__` when the supplied globals dict lacks it. -/
inductive PyVal : Type
  | num (q : ℚ)
  | builtinsModule
deriving DecidableEq

/-- `d.get(k)` on a Python dict modelled as an association list: the value at
the first matching key, if any. -/
def alistGet {α : Type} : List (String × α) → String → Option α
  | [], _ => none
  | (k2, v) :: rest, k => if k2 = k then some v else alistGet rest k

/-- `d[k] = v` on a Python dict: overwrite the value of an existing key in
place, otherwise append the new key at the end (insertion order). -/
def bagSet {α : Type} : List (String × α) → String → α → List (String × α)
  | [], k, v => [(k, v)]
  | (k2, v2) :: rest, k, v =>
      if k2 = k then (k, v) :: rest else (k2, v2) :: bagSet rest k v

/-- `d.keys()` as a list, in insertion order. -/
def keysOf {α : Type} (b : List (String × α)) : List String := b.map Prod.fst

/-- The bag of variables `self.bov`: variable name to current value. -/
abbrev Bag := List (String × PyVal)

/-- A distribution spec, one entry of `self.variable_pdfs`: the Python dict
holds the family under the key "name" (a string, or absent) and the numeric
parameters under their own keys.  `pdf.get("name")` is the `name` field;
`pdf.get(<param>)` is `paramGet` below. -/
structure Pdf where
  name : Option String
  params : List (String × ℚ)
deriving DecidableEq

/-- `pdf.get(k)` for a numeric parameter key `k`. -/
def paramGet (p : Pdf) (k : String) : Option ℚ := alistGet p.params k

/-- `self.variable_pdfs`: variable name to distribution spec. -/
abbrev PdfTable := List (String × Pdf)

/-- numpy `default_rng()` generator state: an abstract entropy source.
`draw i fam ps` is the value the generator would produce at internal state
`i` for family `fam` with parameter list `ps`; `ctr` is the current state. -/
structure RNG where
  ctr : ℕ
  draw : ℕ → String → List ℚ → ℚ

/-- Consuming entropy advances the generator state. -/
def RNG.advance (g : RNG) : RNG := { g with ctr := g.ctr + 1 }

/-- A one-parameter numpy Generator method (e.g. `poisson(lam, size)`): if the
parameter is `None`, numpy raises a TypeError while converting it; otherwise
one scalar is drawn (all call sites in the source pass `size=None`) and the
generator state advances. -/
def npDraw1 (fam : String) (g : RNG) (a : Option ℚ) : Except String (ℚ × RNG) :=
  match a with
  | some x => .ok (g.draw g.ctr fam [x], g.advance)
  | none => .error ("TypeError: None parameter for " ++ fam)

/-- A two-parameter numpy Generator method (e.g. `normal(loc, scale, size)`):
if either parameter is `None`, numpy raises a TypeError while converting it;
otherwise one scalar is drawn and the generator state advances. -/
def npDraw2 (fam : String) (g : RNG) (a b : Option ℚ) : Except String (ℚ × RNG) :=
  match a, b with
  | some x, some y => .ok (g.draw g.ctr fam [x, y], g.advance)
  | _, _ => .error ("TypeError: None parameter for " ++ fam)

/-- `random_sampler_normal`: `self.rng.normal(loc=pdf.get("mean"),
scale=pdf.get("sd"), size=size)` with `size=None` at the only call site. -/
def random_sampler_normal (g : RNG) (pdf : Pdf) : Except String (ℚ × RNG) :=
  npDraw2 "normal" g (paramGet pdf "mean") (paramGet pdf "sd")

/-- `random_sampler_wald`: the source calls
`self.rng.wald(loc=pdf.get("mean"), scale=pdf.get("scale"), size=size)`.
`numpy.random.Generator.wald` has signature `wald(mean, scale, size)`: there
is no keyword parameter `loc`, so the call raises a TypeError (unexpected
keyword argument) before any sampling occurs and before any entropy is
consumed. -/
def random_sampler_wald (g : RNG) (pdf : Pdf) : Except String (ℚ × RNG) :=
  .error "TypeError: wald got an unexpected keyword argument loc"

/-- `random_sampler_poisson`: the source calls
`self.rng.poisson(loc=pdf.get("lambda"), size=size)`.
`numpy.random.Generator.poisson` has signature `poisson(lam, size)`: there is
no keyword parameter `loc`, so the call raises a TypeError (unexpected
keyword argument) before any sampling occurs and before any entropy is
consumed. -/
def random_sampler_poisson (g : RNG) (pdf : Pdf) : Except String (ℚ × RNG) :=
  .error "TypeError: poisson got an unexpected keyword argument loc"

/-- `random_sampler_binomial`: `self.rng.binomial(pdf.get("numtrials"),
pdf.get("probsuccess"), size=size)`. -/
def random_sampler_binomial (g : RNG) (pdf : Pdf) : Except String (ℚ × RNG) :=
  npDraw2 "binomial" g (paramGet pdf "numtrials") (paramGet pdf "probsuccess")

/-- `random_sampler_uniform`: `self.rng.uniform(pdf.get("low"),
pdf.get("high"), size=size)`. -/
def random_sampler_uniform (g : RNG) (pdf : Pdf) : Except String (ℚ × RNG) :=
  npDraw2 "uniform" g (paramGet pdf "low") (paramGet pdf "high")

/-- `random_sampler_chisquare`: `self.rng.chisquare(pdf.get("degfreedom"),
size=size)`. -/
def random_sampler_chisquare (g : RNG) (pdf : Pdf) : Except String (ℚ × RNG) :=
  npDraw1 "chisquare" g (paramGet pdf "degfreedom")

/-- `random_sampler_weibull`: `self.rng.weibull(pdf.get("shape"), size=size)`. -/
def random_sampler_weibull (g : RNG) (pdf : Pdf) : Except String (ℚ × RNG) :=
  npDraw1 "weibull" g (paramGet pdf "shape")

/-- `random_sampler_gamma`: `self.rng.gamma(pdf.get("shape"),
pdf.get("scale"), size=size)`. -/
def random_sampler_gamma (g : RNG) (pdf : Pdf) : Except String (ℚ × RNG) :=
  npDraw2 "gamma" g (paramGet pdf "shape") (paramGet pdf "scale")

/-- `random_sampler_lognormal`: `self.rng.lognormal(pdf.get("mean"),
pdf.get("sigma"), size=size)`. -/
def random_sampler_lognormal (g : RNG) (pdf : Pdf) : Except String (ℚ × RNG) :=
  npDraw2 "lognormal" g (paramGet pdf "mean") (paramGet pdf "sigma")

/-- `random_sampler_exponential`: `self.rng.exponential(pdf.get("scale"),
size=size)`. -/
def random_sampler_exponential (g : RNG) (pdf : Pdf) : Except String (ℚ × RNG) :=
  npDraw1 "exponential" g (paramGet pdf "scale")

/-- `random_sampler_pareto`: `self.rng.pareto(pdf.get("shape"), size=size)`. -/
def random_sampler_pareto (g : RNG) (pdf : Pdf) : Except String (ℚ × RNG) :=
  npDraw1 "pareto" g (paramGet pdf "shape")

/-- The type of a registered sampling method. -/
abbrev SamplerFn := RNG → Pdf → Except String (ℚ × RNG)

/-- `self.samplers`: the distribution registry built in `__init__`, mapping
family name to the bound sampling method. -/
def samplers : List (String × SamplerFn) :=
  [("normal", random_sampler_normal),
   ("poisson", random_sampler_poisson),
   ("binomial", random_sampler_binomial),
   ("lognormal", random_sampler_lognormal),
   ("pareto", random_sampler_pareto),
   ("exponential", random_sampler_exponential),
   ("gamma", random_sampler_gamma),
   ("weibull", random_sampler_weibull),
   ("chisquare", random_sampler_chisquare),
   ("uniform", random_sampler_uniform),
   ("wald", random_sampler_wald)]

/-- The body of the `try` block of `get_random_sample`: read
`pdf.get("name")`; if it is None or not a key of `self.samplers`, raise
"Sampler for ... not implemented"; otherwise call the registered sampler
(which may itself raise). -/
def sample_attempt (g : RNG) (pdf : Pdf) : Except String (ℚ × RNG) :=
  match pdf.name with
  | none => .error "Sampler for None not implemented"
  | some distribution =>
      match alistGet samplers distribution with
      | none => .error ("Sampler for " ++ distribution ++ " not implemented")
      | some sampler => sampler g pdf

/-- `get_random_sample`: `rand_sample` is initialised to 0; the `try` block
(`sample_attempt`) may replace it with a drawn value; any exception is caught
by the bare `except`, printed, and the current `rand_sample` (still 0, and no
entropy consumed) is returned.  This function never raises. -/
def get_random_sample (g : RNG) (pdf : Pdf) : ℚ × RNG :=
  match sample_attempt g pdf with
  | .ok r => r
  | .error _ => (0, g)

/-- The `for key in self.bov.keys()` loop of `refresh_bov`, over an explicit
list of keys: look up the key in `self.variable_pdfs`; if absent, `continue`;
otherwise draw via `get_random_sample` and assign `self.bov[key] = sample`. -/
def refresh_fold (tbl : PdfTable) : List String → Bag × RNG → Bag × RNG
  | [], s => s
  | key :: ks, (b, g) =>
      match alistGet tbl key with
      | none => refresh_fold tbl ks (b, g)
      | some pdf =>
          let r := get_random_sample g pdf
          refresh_fold tbl ks (bagSet b key (PyVal.num r.1), r.2)

/-- `refresh_bov`: loop over the bag's keys refreshing each covered variable,
then `return True`.  The `except` branch returning `False` is unreachable in
this data model: every statement of the `try` block is total (`dict.get`,
`get_random_sample` -- which catches internally -- and assignment to an
existing dict key), so the function is modelled as always returning `True`
together with the updated bag and generator. -/
def refresh_bov (tbl : PdfTable) (bov : Bag) (g : RNG) : Bool × Bag × RNG :=
  let s := refresh_fold tbl (keysOf bov) (bov, g)
  (true, s.1, s.2)

/-- The globals-dict preparation CPython performs on `eval(expr, globals)`:
"if the globals dictionary is present and does not contain a value for the
key `__builtins__`, a reference to the dictionary of the built-in module
`builtins` is inserted under that key before the expression is parsed."
The source passes `self.bov` as the globals dict, so the bag itself gains
this key the first time `eval` runs on it. -/
def py_globals (b : Bag) : Bag :=
  match alistGet b "__builtins__" with
  | none => bagSet b "__builtins__" PyVal.builtinsModule
  | some _ => b

/-- The opaque part of `eval(self.transfer_equation, self.bov)`: computing
the value of the expression from the (prepared) globals dict.  It returns a
scalar or raises (e.g. NameError on an unbound variable, SyntaxError on a
malformed expression); the core treats it as an external collaborator. -/
abbrev EvalFn := Bag → Except String ℚ

/-- The `for i in range(self.num_iterations)` loop of `simulate`, with the
collected `values` list threaded as an accumulator (in reverse): each
iteration calls `refresh_bov` (its boolean result is ignored), then evaluates
the transfer equation against the bag -- CPython first inserts `__builtins__`
into the bag (`py_globals`), then computes the value (`f`); an evaluator
exception is not caught and propagates out of `simulate`. -/
def sim_loop (f : EvalFn) (tbl : PdfTable) :
    ℕ → Bag → RNG → List ℚ → Except String (List ℚ) × Bag × RNG
  | 0, b, g, acc => (.ok acc.reverse, b, g)
  | n + 1, b, g, acc =>
      let r := refresh_bov tbl b g
      let b2 := py_globals r.2.1
      match f b2 with
      | .error e => (.error e, b2, r.2.2)
      | .ok v => sim_loop f tbl n b2 r.2.2 (v :: acc)

/-- `np.array(values).mean()`: the arithmetic mean (sum over count). -/
def np_mean (l : List ℚ) : ℚ := l.sum / l.length

/-- The square of `np.array(values).std()`: numpy's `std` with its default
`ddof=0` computes the square root of the mean of the squared deviations from
the mean.  The model carries the square (the population variance), which is a
rational and determines the standard deviation uniquely; in particular the
standard deviation is exactly 0 iff this is 0. -/
def np_var (l : List ℚ) : ℚ := np_mean (l.map (fun x => (x - np_mean l) ^ 2))

/-- The record returned by `simulate`: `{"mean": ..., "sd": ...}`, with the
standard deviation represented by its square `sdSq` (see `np_var`). -/
structure SimResult where
  mean : ℚ
  sdSq : ℚ
deriving DecidableEq

/-- `simulate`: run the iteration loop starting from the constructed bag and
generator, then aggregate the collected values with numpy mean/std.  An
evaluator exception propagates (no `SimResult` is produced); the bag and
generator state at exit are also returned to make the mutation of `self.bov`
observable. -/
def simulate (f : EvalFn) (tbl : PdfTable) (bov : Bag) (g : RNG) (n : ℕ) :
    Except String SimResult × Bag × RNG :=
  match sim_loop f tbl n bov g [] with
  | (.error e, b, g2) => (.error e, b, g2)
  | (.ok values, b, g2) => (.ok ⟨np_mean values, np_var values⟩, b, g2)

/-- One iteration's effect on the (bag, generator) state: refresh, then the
globals-dict preparation done by `eval`. -/
def sstep (tbl : PdfTable) (s : Bag × RNG) : Bag × RNG :=
  let r := refresh_bov tbl s.1 s.2
  (py_globals r.2.1, r.2.2)

/-- The (bag, generator) state after `n` iterations of the loop. -/
def run_state (tbl : PdfTable) : ℕ → Bag × RNG → Bag × RNG
  | 0, s => s
  | n + 1, s => run_state tbl n (sstep tbl s)

/-- Modelled from the spec (4.4): "mean is the arithmetic mean". -/
def specMean (l : List ℚ) : ℚ := l.sum / l.length

/-- Modelled from the spec (4.4): the population variance, the square of the
population standard deviation -- "divide by count, not count minus 1". -/
def specPopVar (l : List ℚ) : ℚ :=
  (l.map (fun x => (x - specMean l) ^ 2)).sum / l.length

/-- The sample variance (denominator count minus 1), the convention the spec
rules out; used only to show the two conventions genuinely differ. -/
def specSampleVar (l : List ℚ) : ℚ :=
  (l.map (fun x => (x - specMean l) ^ 2)).sum / ((l.length : ℚ) - 1)

/-- Decidable equality of `Except` results, so that concrete runs can be
checked by `decide`. -/
instance {e a : Type} [DecidableEq e] [DecidableEq a] : DecidableEq (Except e a)
  | .ok x, .ok y =>
      if h : x = y then isTrue (by rw [h]) else isFalse (by intro hc; cases hc; exact h rfl)
  | .ok _, .error _ => isFalse (by intro h; cases h)
  | .error _, .ok _ => isFalse (by intro h; cases h)
  | .error x, .error y =>
      if h : x = y then isTrue (by rw [h]) else isFalse (by intro hc; cases hc; exact h rfl)

theorem bagSet_get_self {α : Type} (b : List (String × α)) (k : String) (v : α) :
    alistGet (bagSet b k v) k = some v := by
  induction b with
  | nil => simp [bagSet, alistGet]
  | cons hd tl ih =>
    obtain ⟨k2, v2⟩ := hd
    by_cases h : k2 = k
    · simp [bagSet, h, alistGet]
    · simp [bagSet, h, alistGet, ih]

theorem bagSet_get_ne {α : Type} (b : List (String × α)) {k k2 : String}
    (h : k2 ≠ k) (v : α) : alistGet (bagSet b k2 v) k = alistGet b k := by
  induction b with
  | nil => simp [bagSet, alistGet, h]
  | cons hd tl ih =>
    obtain ⟨k3, v3⟩ := hd
    by_cases h3 : k3 = k2
    · subst h3
      simp [bagSet, alistGet, h]
    · simp [bagSet, h3, alistGet, ih]

theorem keysOf_bagSet_of_mem {α : Type} (b : List (String × α)) (k : String) (v : α) :
    k ∈ keysOf b → keysOf (bagSet b k v) = keysOf b := by
  induction b with
  | nil => intro h; simp [keysOf] at h
  | cons hd tl ih =>
    intro h
    obtain ⟨k2, v2⟩ := hd
    by_cases h2 : k2 = k
    · simp [bagSet, h2, keysOf]
    · have hmem : k ∈ keysOf tl := by
        simp [keysOf] at h
        rcases h with h | h
        · exact absurd h.symm h2
        · simpa [keysOf] using h
      simp [bagSet, h2, keysOf]
      simpa [keysOf] using ih hmem

theorem keysOf_bagSet_of_not_mem {α : Type} (b : List (String × α)) (k : String) (v : α) :
    k ∉ keysOf b → keysOf (bagSet b k v) = keysOf b ++ [k] := by
  induction b with
  | nil => intro h; simp [bagSet, keysOf]
  | cons hd tl ih =>
    intro h
    obtain ⟨k2, v2⟩ := hd
    have h2 : k2 ≠ k := by
      intro hc
      exact h (by simp [keysOf, hc])
    have htl : k ∉ keysOf tl := by
      intro hc
      exact h (by simp [keysOf] at hc ⊢; right; exact hc)
    simp [bagSet, h2, keysOf]
    simpa [keysOf] using ih htl

theorem alistGet_eq_none_iff {α : Type} (b : List (String × α)) (k : String) :
    alistGet b k = none ↔ k ∉ keysOf b := by
  induction b with
  | nil => simp [alistGet, keysOf]
  | cons hd tl ih =>
    obtain ⟨k2, v2⟩ := hd
    by_cases h2 : k2 = k
    · simp [alistGet, h2, keysOf]
    · simp [alistGet, h2, keysOf, ih, Ne.symm h2]

theorem alistGet_isSome_iff_mem {α : Type} (b : List (String × α)) (k : String) :
    (alistGet b k).isSome = true ↔ k ∈ keysOf b := by
  rcases h : alistGet b k with _ | v
  · simpa using (alistGet_eq_none_iff b k).mp h
  · have : ¬ alistGet b k = none := by simp [h]
    simpa using (not_iff_not.mpr (alistGet_eq_none_iff b k)).mp this

theorem refresh_fold_keys (tbl : PdfTable) :
    ∀ (ks : List String) (b : Bag) (g : RNG), (∀ k ∈ ks, k ∈ keysOf b) →
      keysOf (refresh_fold tbl ks (b, g)).1 = keysOf b := by
  intro ks
  induction ks with
  | nil => intro b g _; simp [refresh_fold]
  | cons key rest ih =>
    intro b g h
    rcases hc : alistGet tbl key with _ | pdf
    · simp only [refresh_fold, hc]
      exact ih b g (fun k hk => h k (List.mem_cons_of_mem _ hk))
    · have hkey : key ∈ keysOf b := h key (List.mem_cons_self _ _)
      have hkeys := keysOf_bagSet_of_mem b key
        (PyVal.num (get_random_sample g pdf).1) hkey
      simp only [refresh_fold, hc]
      refine (ih _ _ ?_).trans hkeys
      intro k hk
      rw [hkeys]
      exact h k (List.mem_cons_of_mem _ hk)

theorem refresh_fold_get_uncovered (tbl : PdfTable) {k : String}
    (h : alistGet tbl k = none) :
    ∀ (ks : List String) (b : Bag) (g : RNG),
      alistGet (refresh_fold tbl ks (b, g)).1 k = alistGet b k := by
  intro ks
  induction ks with
  | nil => intro b g; simp [refresh_fold]
  | cons key rest ih =>
    intro b g
    rcases hc : alistGet tbl key with _ | pdf
    · simp only [refresh_fold, hc]
      exact ih b g
    · have hne : key ≠ k := by
        rintro rfl
        rw [h] at hc
        cases hc
      simp only [refresh_fold, hc]
      rw [ih, bagSet_get_ne _ hne]

theorem refresh_fold_get_not_mem (tbl : PdfTable) {k : String} :
    ∀ (ks : List String), k ∉ ks → ∀ (b : Bag) (g : RNG),
      alistGet (refresh_fold tbl ks (b, g)).1 k = alistGet b k := by
  intro ks
  induction ks with
  | nil => intro _ b g; simp [refresh_fold]
  | cons key rest ih =>
    intro hmem b g
    have h1 : key ≠ k := fun hc => hmem (hc ▸ List.mem_cons_self _ _)
    have h2 : k ∉ rest := fun hc => hmem (List.mem_cons_of_mem _ hc)
    rcases hc : alistGet tbl key with _ | pdf
    · simp only [refresh_fold, hc]
      exact ih h2 b g
    · simp only [refresh_fold, hc]
      rw [ih h2, bagSet_get_ne _ h1]

theorem refresh_fold_covered (tbl : PdfTable) {k : String} {pdf : Pdf}
    (hc : alistGet tbl k = some pdf) :
    ∀ (ks : List String), ks.Nodup → k ∈ ks → ∀ (b : Bag) (g : RNG),
      ∃ g2, alistGet (refresh_fold tbl ks (b, g)).1 k
        = some (PyVal.num (get_random_sample g2 pdf).1) := by
  intro ks
  induction ks with
  | nil => intro _ h; cases h
  | cons key rest ih =>
    intro hnd hk b g
    by_cases hkey : key = k
    · subst hkey
      have hnotin : key ∉ rest := (List.nodup_cons.mp hnd).1
      refine ⟨g, ?_⟩
      simp only [refresh_fold, hc]
      rw [refresh_fold_get_not_mem tbl rest hnotin, bagSet_get_self]
    · have hkrest : k ∈ rest := by
        rcases List.mem_cons.mp hk with h | h
        · exact absurd h.symm hkey
        · exact h
      rcases hc2 : alistGet tbl key with _ | pdf2
      · simp only [refresh_fold, hc2]
        exact ih (List.nodup_cons.mp hnd).2 hkrest b g
      · simp only [refresh_fold, hc2]
        exact ih (List.nodup_cons.mp hnd).2 hkrest _ _

theorem refresh_fold_zero (tbl : PdfTable) {k : String} {pdf : Pdf}
    (hc : alistGet tbl k = some pdf) (h0 : ∀ g, get_random_sample g pdf = (0, g)) :
    ∀ (ks : List String) (b : Bag) (g : RNG),
      (k ∈ ks ∨ alistGet b k = some (PyVal.num 0)) →
      alistGet (refresh_fold tbl ks (b, g)).1 k = some (PyVal.num 0) := by
  intro ks
  induction ks with
  | nil =>
    rintro b g (h | h)
    · cases h
    · simpa [refresh_fold] using h
  | cons key rest ih =>
    rintro b g hin
    by_cases hkey : key = k
    · subst hkey
      simp only [refresh_fold, hc, h0 g]
      exact ih _ _ (Or.inr (bagSet_get_self _ _ _))
    · rcases hc2 : alistGet tbl key with _ | pdf2
      · simp only [refresh_fold, hc2]
        apply ih
        rcases hin with h | h
        · rcases List.mem_cons.mp h with h | h
          · exact absurd h.symm hkey
          · exact Or.inl h
        · exact Or.inr h
      · simp only [refresh_fold, hc2]
        apply ih
        rcases hin with h | h
        · rcases List.mem_cons.mp h with h | h
          · exact absurd h.symm hkey
          · exact Or.inl h
        · refine Or.inr ?_
          rw [bagSet_get_ne _ hkey]
          exact h

theorem refresh_fold_nil_tbl : ∀ (ks : List String) (s : Bag × RNG),
    refresh_fold [] ks s = s := by
  intro ks
  induction ks with
  | nil => intro s; rfl
  | cons key rest ih =>
    intro s
    obtain ⟨b, g⟩ := s
    simp [refresh_fold, alistGet, ih]

theorem refresh_bov_ok (tbl : PdfTable) (bov : Bag) (g : RNG) :
    (refresh_bov tbl bov g).1 = true := rfl

theorem refresh_bov_keys (tbl : PdfTable) (bov : Bag) (g : RNG) :
    keysOf (refresh_bov tbl bov g).2.1 = keysOf bov := by
  simpa [refresh_bov] using refresh_fold_keys tbl (keysOf bov) bov g (fun k hk => hk)

theorem refresh_bov_empty (bov : Bag) (g : RNG) : refresh_bov [] bov g = (true, bov, g) := by
  simp [refresh_bov, refresh_fold_nil_tbl]

theorem py_globals_of_present {b : Bag} {w : PyVal}
    (h : alistGet b "__builtins__" = some w) : py_globals b = b := by
  simp [py_globals, h]

theorem py_globals_keys_of_absent {b : Bag} (h : alistGet b "__builtins__" = none) :
    keysOf (py_globals b) = keysOf b ++ ["__builtins__"] := by
  simp only [py_globals, h]
  exact keysOf_bagSet_of_not_mem b _ _ ((alistGet_eq_none_iff b _).mp h)

theorem py_globals_builtins_present (b : Bag) :
    alistGet (py_globals b) "__builtins__" ≠ none := by
  rcases h : alistGet b "__builtins__" with _ | w
  · simp [py_globals, h, bagSet_get_self]
  · simp [py_globals, h]

theorem np_mean_singleton (v : ℚ) : np_mean [v] = v := by
  simp [np_mean]

theorem np_var_singleton (v : ℚ) : np_var [v] = 0 := by
  simp [np_var, np_mean]

theorem np_mean_eq_specMean (l : List ℚ) : np_mean l = specMean l := rfl

theorem np_var_eq_specPopVar (l : List ℚ) : np_var l = specPopVar l := by
  simp [np_var, np_mean, specPopVar, specMean]

theorem sim_loop_total (fE : Bag → ℚ) (tbl : PdfTable) :
    ∀ (n : ℕ) (b : Bag) (g : RNG) (acc : List ℚ),
      sim_loop (fun bb => .ok (fE bb)) tbl n b g acc
        = (.ok (acc.reverse
              ++ (List.range n).map (fun i => fE (run_state tbl (i + 1) (b, g)).1)),
           run_state tbl n (b, g)) := by
  intro n
  induction n with
  | zero => intro b g acc; simp [sim_loop, run_state]
  | succ m ih =>
    intro b g acc
    have hstep : sim_loop (fun bb => .ok (fE bb)) tbl (m + 1) b g acc
        = sim_loop (fun bb => .ok (fE bb)) tbl m (sstep tbl (b, g)).1 (sstep tbl (b, g)).2
            (fE (sstep tbl (b, g)).1 :: acc) := rfl
    have hlist : (List.range (m + 1)).map (fun i => fE (run_state tbl (i + 1) (b, g)).1)
        = fE (sstep tbl (b, g)).1
            :: (List.range m).map (fun i => fE (run_state tbl (i + 1) (sstep tbl (b, g))).1) := by
      rw [List.range_succ_eq_map, List.map_cons, List.map_map]
      rfl
    rw [hstep, ih, hlist]
    simp [List.reverse_cons, List.append_assoc]
    rfl

theorem sim_loop_keys_of_present (f : EvalFn) (tbl : PdfTable) :
    ∀ (n : ℕ) (b : Bag) (g : RNG) (acc : List ℚ),
      alistGet b "__builtins__" ≠ none →
      keysOf (sim_loop f tbl n b g acc).2.1 = keysOf b := by
  intro n
  induction n with
  | zero => intro b g acc _; simp [sim_loop]
  | succ m ih =>
    intro b g acc hp
    have hkeys : keysOf (refresh_bov tbl b g).2.1 = keysOf b := refresh_bov_keys tbl b g
    have hp2 : alistGet (refresh_bov tbl b g).2.1 "__builtins__" ≠ none := by
      intro hc
      apply hp
      rw [alistGet_eq_none_iff] at hc ⊢
      rw [hkeys] at hc
      exact hc
    obtain ⟨w, hw⟩ : ∃ w, alistGet (refresh_bov tbl b g).2.1 "__builtins__" = some w := by
      rcases hh : alistGet (refresh_bov tbl b g).2.1 "__builtins__" with _ | w
      · exact absurd hh hp2
      · exact ⟨w, rfl⟩
    have hpg : py_globals (refresh_bov tbl b g).2.1 = (refresh_bov tbl b g).2.1 :=
      py_globals_of_present hw
    simp only [sim_loop, hpg]
    rcases hf : f (refresh_bov tbl b g).2.1 with e | v
    · simpa [hf] using hkeys
    · simp only [hf]
      rw [ih _ _ _ hp2, hkeys]

theorem sim_loop_err (f : EvalFn) (tbl : PdfTable) (e : String) :
    ∀ (k n : ℕ) (b : Bag) (g : RNG) (acc : List ℚ), k < n →
      (∀ i, i < k → ∃ v, f (run_state tbl (i + 1) (b, g)).1 = .ok v) →
      f (run_state tbl (k + 1) (b, g)).1 = .error e →
      (sim_loop f tbl n b g acc).1 = .error e := by
  intro k
  induction k with
  | zero =>
    intro n b g acc hn _ herr
    obtain ⟨m, rfl⟩ : ∃ m, n = m + 1 := ⟨n - 1, by omega⟩
    simp only [sim_loop]
    rw [show f (py_globals (refresh_bov tbl b g).2.1) = .error e from herr]
  | succ j ih =>
    intro n b g acc hn hok herr
    obtain ⟨m, rfl⟩ : ∃ m, n = m + 1 := ⟨n - 1, by omega⟩
    obtain ⟨v, hv⟩ := hok 0 (Nat.succ_pos j)
    simp only [sim_loop]
    rw [show f (py_globals (refresh_bov tbl b g).2.1) = .ok v from hv]
    exact ih m (sstep tbl (b, g)).1 (sstep tbl (b, g)).2 (v :: acc) (by omega)
      (fun i hi => hok (i + 1) (by omega)) herr

theorem get_random_sample_of_err {g : RNG} {pdf : Pdf} {e : String}
    (h : sample_attempt g pdf = .error e) : get_random_sample g pdf = (0, g) := by
  unfold get_random_sample
  rw [h]

theorem refresh_bov_zero {tbl : PdfTable} {pdf : Pdf} {k : String}
    (hc : alistGet tbl k = some pdf) (h0 : ∀ g, get_random_sample g pdf = (0, g))
    (bov : Bag) (g : RNG) (hk : k ∈ keysOf bov) :
    alistGet (refresh_bov tbl bov g).2.1 k = some (PyVal.num 0) := by
  simpa [refresh_bov] using refresh_fold_zero tbl hc h0 (keysOf bov) bov g (Or.inl hk)

theorem simulate_state (f : EvalFn) (tbl : PdfTable) (bov : Bag) (g : RNG) (n : ℕ) :
    (simulate f tbl bov g n).2 = (sim_loop f tbl n bov g []).2 := by
  simp only [simulate]
  rcases h : sim_loop f tbl n bov g [] with ⟨res, b2, g2⟩
  cases res <;> simp

/-- A deterministic generator used for concrete runs: every draw yields 0. -/
def gZero : RNG := ⟨0, fun _ _ _ => 0⟩

/-- A one-variable bag for concrete runs. -/
def bagX : Bag := [("x", PyVal.num 5)]

/-- A spec with an unregistered family name. -/
def pdfZeta : Pdf := ⟨some "zeta", []⟩

/-- A table covering the variable of `bagX` with the unregistered spec. -/
def tblZeta : PdfTable := [("x", pdfZeta)]

/-- A concrete evaluation function for the formula "x": read the current value
of variable x from the bag. -/
def evalX : EvalFn := fun b =>
  match alistGet b "x" with
  | some (PyVal.num q) => .ok q
  | _ => .ok 0

/-- A two-variable bag for concrete runs. -/
def bagAB : Bag := [("a", PyVal.num 1), ("b", PyVal.num 2)]

/-- A well-formed normal spec. -/
def pdfNormal : Pdf := ⟨some "normal", [("mean", 3), ("sd", 1)]⟩

/-- A table covering only variable b of `bagAB`. -/
def tblB : PdfTable := [("b", pdfNormal)]

theorem npDraw1_none (fam : String) (g : RNG) :
    npDraw1 fam g none = .error ("TypeError: None parameter for " ++ fam) := rfl

theorem npDraw2_none_left (fam : String) (g : RNG) (b : Option ℚ) :
    npDraw2 fam g none b = .error ("TypeError: None parameter for " ++ fam) := by
  cases b <;> rfl

theorem npDraw2_none_right (fam : String) (g : RNG) (a : Option ℚ) :
    npDraw2 fam g a none = .error ("TypeError: None parameter for " ++ fam) := by
  cases a <;> rfl

theorem sample_attempt_registered {pdf : Pdf} {d : String} {fn : SamplerFn}
    (hname : pdf.name = some d) (hfn : alistGet samplers d = some fn) (g : RNG) :
    sample_attempt g pdf = fn g pdf := by
  obtain ⟨pn, params⟩ := pdf
  simp only [Pdf.name] at hname
  subst hname
  simp [sample_attempt, hfn]

/-- The parameter keys each registered sampler reads from the spec dict via
`pdf.get` and requires to be present (they match the mandatory keys named in
the samplers' docstrings and the spec's family table in 4.1).  For poisson and
wald the listed keys are the documented mandatory ones; those two samplers
raise before reading any parameter (see `random_sampler_poisson`/`_wald`). -/
def requiredParams : String → List String
  | "normal" => ["mean", "sd"]
  | "poisson" => ["lambda"]
  | "binomial" => ["numtrials", "probsuccess"]
  | "lognormal" => ["mean", "sigma"]
  | "pareto" => ["shape"]
  | "exponential" => ["scale"]
  | "gamma" => ["shape", "scale"]
  | "weibull" => ["shape"]
  | "chisquare" => ["degfreedom"]
  | "uniform" => ["low", "high"]
  | "wald" => ["mean", "scale"]
  | _ => []

theorem sampler_missing_param_err (d p : String) (hd : d ∈ keysOf samplers)
    (hp : p ∈ requiredParams d) :
    ∀ (pdf : Pdf), pdf.name = some d → paramGet pdf p = none →
    ∀ g : RNG, ∃ e, sample_attempt g pdf = .error e := by
  have hd2 : d = "normal" ∨ d = "poisson" ∨ d = "binomial" ∨ d = "lognormal"
      ∨ d = "pareto" ∨ d = "exponential" ∨ d = "gamma" ∨ d = "weibull"
      ∨ d = "chisquare" ∨ d = "uniform" ∨ d = "wald" := by
    simpa [samplers, keysOf] using hd
  rcases hd2 with rfl | rfl | rfl | rfl | rfl | rfl | rfl | rfl | rfl | rfl | rfl
  · intro pdf hname hmiss g
    refine ⟨"TypeError: None parameter for " ++ "normal", ?_⟩
    rw [sample_attempt_registered hname rfl g]
    simp only [random_sampler_normal]
    simp only [requiredParams] at hp
    simp at hp
    rcases hp with rfl | rfl
    · rw [hmiss]; exact npDraw2_none_left _ _ _
    · rw [hmiss]; exact npDraw2_none_right _ _ _
  · intro pdf hname hmiss g
    refine ⟨"TypeError: poisson got an unexpected keyword argument loc", ?_⟩
    rw [sample_attempt_registered hname rfl g]
    rfl
  · intro pdf hname hmiss g
    refine ⟨"TypeError: None parameter for " ++ "binomial", ?_⟩
    rw [sample_attempt_registered hname rfl g]
    simp only [random_sampler_binomial]
    simp only [requiredParams] at hp
    simp at hp
    rcases hp with rfl | rfl
    · rw [hmiss]; exact npDraw2_none_left _ _ _
    · rw [hmiss]; exact npDraw2_none_right _ _ _
  · intro pdf hname hmiss g
    refine ⟨"TypeError: None parameter for " ++ "lognormal", ?_⟩
    rw [sample_attempt_registered hname rfl g]
    simp only [random_sampler_lognormal]
    simp only [requiredParams] at hp
    simp at hp
    rcases hp with rfl | rfl
    · rw [hmiss]; exact npDraw2_none_left _ _ _
    · rw [hmiss]; exact npDraw2_none_right _ _ _
  · intro pdf hname hmiss g
    refine ⟨"TypeError: None parameter for " ++ "pareto", ?_⟩
    rw [sample_attempt_registered hname rfl g]
    simp only [random_sampler_pareto]
    simp only [requiredParams] at hp
    simp at hp
    subst hp
    rw [hmiss]; exact npDraw1_none _ _
  · intro pdf hname hmiss g
    refine ⟨"TypeError: None parameter for " ++ "exponential", ?_⟩
    rw [sample_attempt_registered hname rfl g]
    simp only [random_sampler_exponential]
    simp only [requiredParams] at hp
    simp at hp
    subst hp
    rw [hmiss]; exact npDraw1_none _ _
  · intro pdf hname hmiss g
    refine ⟨"TypeError: None parameter for " ++ "gamma", ?_⟩
    rw [sample_attempt_registered hname rfl g]
    simp only [random_sampler_gamma]
    simp only [requiredParams] at hp
    simp at hp
    rcases hp with rfl | rfl
    · rw [hmiss]; exact npDraw2_none_left _ _ _
    · rw [hmiss]; exact npDraw2_none_right _ _ _
  · intro pdf hname hmiss g
    refine ⟨"TypeError: None parameter for " ++ "weibull", ?_⟩
    rw [sample_attempt_registered hname rfl g]
    simp only [random_sampler_weibull]
    simp only [requiredParams] at hp
    simp at hp
    subst hp
    rw [hmiss]; exact npDraw1_none _ _
  · intro pdf hname hmiss g
    refine ⟨"TypeError: None parameter for " ++ "chisquare", ?_⟩
    rw [sample_attempt_registered hname rfl g]
    simp only [random_sampler_chisquare]
    simp only [requiredParams] at hp
    simp at hp
    subst hp
    rw [hmiss]; exact npDraw1_none _ _
  · intro pdf hname hmiss g
    refine ⟨"TypeError: None parameter for " ++ "uniform", ?_⟩
    rw [sample_attempt_registered hname rfl g]
    simp only [random_sampler_uniform]
    simp only [requiredParams] at hp
    simp at hp
    rcases hp with rfl | rfl
    · rw [hmiss]; exact npDraw2_none_left _ _ _
    · rw [hmiss]; exact npDraw2_none_right _ _ _
  · intro pdf hname hmiss g
    refine ⟨"TypeError: wald got an unexpected keyword argument loc", ?_⟩
    rw [sample_attempt_registered hname rfl g]
    rfl

theorem simulate_of_loop_ok {f : EvalFn} {tbl : PdfTable} {bov : Bag} {g : RNG}
    {n : ℕ} {vs : List ℚ} (h : (sim_loop f tbl n bov g []).1 = .ok vs) :
    (simulate f tbl bov g n).1 = .ok ⟨np_mean vs, np_var vs⟩ := by
  rcases hsl : sim_loop f tbl n bov g [] with ⟨res, b2, g2⟩
  rw [hsl] at h
  cases res with
  | error e => simp at h
  | ok values =>
    simp at h
    subst h
    simp [simulate, hsl]

theorem simulate_of_loop_err {f : EvalFn} {tbl : PdfTable} {bov : Bag} {g : RNG}
    {n : ℕ} {e : String} (h : (sim_loop f tbl n bov g []).1 = .error e) :
    (simulate f tbl bov g n).1 = .error e := by
  rcases hsl : sim_loop f tbl n bov g [] with ⟨res, b2, g2⟩
  rw [hsl] at h
  cases res with
  | error e2 =>
    simp at h
    subst h
    simp [simulate, hsl]
  | ok values => simp at h

/-- C1: for every formula (modelled by the opaque evaluation function `fE`, total
because the claim's scenario has each evaluation produce one scalar), pdf table,
bag, generator and iteration count n, `simulate` performs exactly n sequential
iterations with no early exit: the loop collects, in order, one scalar per
iteration -- the formula evaluated against the bag as refreshed by that
iteration -- the collected sequence has length exactly n, and `simulate` returns
the aggregate of exactly that sequence. -/
theorem spec_C1_simulate_exact_iterations (fE : Bag → ℚ) (tbl : PdfTable) (bov : Bag)
    (g : RNG) (n : ℕ) :
    (sim_loop (fun b => .ok (fE b)) tbl n bov g []).1
        = .ok ((List.range n).map (fun i => fE (run_state tbl (i + 1) (bov, g)).1))
      ∧ ((List.range n).map (fun i => fE (run_state tbl (i + 1) (bov, g)).1)).length = n
      ∧ (simulate (fun b => .ok (fE b)) tbl bov g n).1
        = .ok ⟨np_mean ((List.range n).map (fun i => fE (run_state tbl (i + 1) (bov, g)).1)),
               np_var ((List.range n).map (fun i => fE (run_state tbl (i + 1) (bov, g)).1))⟩ := by
  have h := sim_loop_total fE tbl n bov g []
  refine ⟨by rw [h]; simp, by simp, ?_⟩
  simp [simulate, h]

/-- C2: whenever a run completes with a non-empty collected result sequence, the
returned record's mean is the arithmetic mean of the collected results and its
standard deviation is the population one: its square is the squared deviations
divided by the count N (not N-1; the final conjunct certifies the two
conventions differ). -/
theorem spec_C2_population_stats (f : EvalFn) (tbl : PdfTable) (bov : Bag)
    (g : RNG) (n : ℕ) (r : SimResult) (vs : List ℚ)
    (hr : (simulate f tbl bov g n).1 = .ok r)
    (hv : (sim_loop f tbl n bov g []).1 = .ok vs)
    (hne : vs ≠ []) :
    r.mean = specMean vs ∧ r.sdSq = specPopVar vs
      ∧ np_var [0, 1] ≠ specSampleVar [0, 1] := by
  rw [simulate_of_loop_ok hv] at hr
  cases hr
  refine ⟨np_mean_eq_specMean vs, np_var_eq_specPopVar vs, ?_⟩
  norm_num [np_var, np_mean, specSampleVar, specMean]

/-- C2 witness: a concrete two-iteration run with formula "x", empty pdf table
and bag x = 5 collects [5, 5] and returns mean 5 and (squared) sd 0. -/
theorem spec_C2_witness :
    SimResult.mean ⟨5, 0⟩ = specMean [5, 5] ∧ SimResult.sdSq ⟨5, 0⟩ = specPopVar [5, 5]
      ∧ np_var [0, 1] ≠ specSampleVar [0, 1] :=
  spec_C2_population_stats evalX [] bagX gZero 2 ⟨5, 0⟩ [5, 5]
    (by simp [simulate, sim_loop, refresh_bov, refresh_fold, keysOf, py_globals, alistGet,
          bagSet, evalX, np_mean, np_var, bagX, gZero])
    (by simp [sim_loop, refresh_bov, refresh_fold, keysOf, py_globals, alistGet,
          bagSet, evalX, bagX, gZero])
    (by simp)

/-- C3 counterexample: during a refresh of the bag x = 5 under a table mapping x
to an unregistered family, an exception is raised while resolving/sampling the
variable x (`sample_attempt` fails), yet `refresh_bov` does NOT return failure:
it returns success (true) and overwrites x with the degraded sample 0, refuting
the claim that a sampling exception makes the refresh abort and report false. -/
theorem spec_C3_counterexample :
    alistGet tblZeta "x" = some pdfZeta
      ∧ sample_attempt gZero pdfZeta = .error "Sampler for zeta not implemented"
      ∧ refresh_bov tblZeta bagX gZero = (true, [("x", PyVal.num 0)], gZero) :=
  ⟨rfl, rfl, rfl⟩

/-- C3 (amended): an exception raised while resolving or sampling a variable is
caught inside `get_random_sample` itself, which yields the degraded sample 0
without consuming entropy; the refresh therefore never aborts: it continues
through the remaining variables, reports success (true) for every bag and
table, and each variable covered by the failing spec is overwritten with 0
(state from variables processed before the failure is indeed retained -- there
is no rollback, since the refresh keeps mutating through to the end). -/
theorem spec_C3_sampling_error_swallowed (pdf : Pdf)
    (herr : ∀ g : RNG, ∃ e, sample_attempt g pdf = .error e) :
    (∀ g : RNG, get_random_sample g pdf = (0, g))
      ∧ (∀ (tbl : PdfTable) (bov : Bag) (g : RNG), (refresh_bov tbl bov g).1 = true)
      ∧ (∀ (tbl : PdfTable) (bov : Bag) (g : RNG) (k : String),
          alistGet tbl k = some pdf → k ∈ keysOf bov →
          alistGet (refresh_bov tbl bov g).2.1 k = some (PyVal.num 0)) := by
  have h0 : ∀ g : RNG, get_random_sample g pdf = (0, g) := by
    intro g
    obtain ⟨e, he⟩ := herr g
    exact get_random_sample_of_err he
  exact ⟨h0, fun _ _ _ => rfl,
    fun tbl bov g k hc hk => refresh_bov_zero hc h0 bov g hk⟩

/-- C3 witness: the amended claim applied to the unregistered spec `pdfZeta`. -/
theorem spec_C3_witness :
    get_random_sample gZero pdfZeta = (0, gZero)
      ∧ (refresh_bov tblZeta bagX gZero).1 = true
      ∧ alistGet (refresh_bov tblZeta bagX gZero).2.1 "x" = some (PyVal.num 0) := by
  have h := spec_C3_sampling_error_swallowed pdfZeta
    (fun g => ⟨"Sampler for zeta not implemented", rfl⟩)
  exact ⟨h.1 gZero, h.2.1 tblZeta bagX gZero,
    h.2.2 tblZeta bagX gZero "x" rfl (by decide)⟩

/-- C4: for a spec whose family name is missing or not registered, drawing a
sample never raises past `get_random_sample`: it returns the degraded sample 0
(and the generator state untouched), the enclosing refresh reports success, and
a simulation run completes with a result instead of aborting. -/
theorem spec_C4_unknown_family_degraded (g : RNG) (pdf : Pdf)
    (hmiss : pdf.name = none ∨ ∃ d, pdf.name = some d ∧ alistGet samplers d = none) :
    get_random_sample g pdf = (0, g)
      ∧ (∀ (tbl : PdfTable) (bov : Bag), (refresh_bov tbl bov g).1 = true)
      ∧ (∀ (fE : Bag → ℚ) (tbl : PdfTable) (bov : Bag) (n : ℕ),
          ∃ r, (simulate (fun b => .ok (fE b)) tbl bov g n).1 = .ok r) := by
  have herr : ∃ e, sample_attempt g pdf = .error e := by
    rcases hmiss with h | ⟨d, hd, hreg⟩
    · refine ⟨"Sampler for None not implemented", ?_⟩
      simp [sample_attempt, h]
    · refine ⟨"Sampler for " ++ d ++ " not implemented", ?_⟩
      simp [sample_attempt, hd, hreg]
  obtain ⟨e, he⟩ := herr
  refine ⟨get_random_sample_of_err he, fun _ _ => rfl, ?_⟩
  intro fE tbl bov n
  have h := sim_loop_total fE tbl n bov g []
  refine ⟨⟨np_mean ((List.range n).map (fun i => fE (run_state tbl (i + 1) (bov, g)).1)),
          np_var ((List.range n).map (fun i => fE (run_state tbl (i + 1) (bov, g)).1))⟩, ?_⟩
  simp [simulate, h]

/-- C4 witness: the unregistered family "zeta" at a concrete generator, with a
concrete three-iteration run completing. -/
theorem spec_C4_witness :
    get_random_sample gZero pdfZeta = (0, gZero)
      ∧ ∃ r, (simulate (fun _ => Except.ok (1 : ℚ)) tblZeta bagX gZero 3).1 = .ok r := by
  have h := spec_C4_unknown_family_degraded gZero pdfZeta (Or.inr ⟨"zeta", rfl, rfl⟩)
  exact ⟨h.1, h.2.2 (fun _ => 1) tblZeta bagX 3⟩

/-- C5: a refresh reports success and leaves every bag key with no entry in the
pdf table unchanged (silent no-op), while every bag key with an entry is
overwritten with a freshly drawn scalar sample (the draw made at the generator
state reached at that key); with an empty pdf table the refresh is a success
no-op leaving the whole bag (and the generator) unchanged. -/
theorem spec_C5_refresh_frame (tbl : PdfTable) (bov : Bag) (g : RNG)
    (hnd : (keysOf bov).Nodup) :
    (refresh_bov tbl bov g).1 = true
      ∧ (∀ k, alistGet tbl k = none →
          alistGet (refresh_bov tbl bov g).2.1 k = alistGet bov k)
      ∧ (∀ k pdf, k ∈ keysOf bov → alistGet tbl k = some pdf →
          ∃ g2, alistGet (refresh_bov tbl bov g).2.1 k
            = some (PyVal.num (get_random_sample g2 pdf).1))
      ∧ refresh_bov [] bov g = (true, bov, g) := by
  refine ⟨rfl, ?_, ?_, refresh_bov_empty bov g⟩
  · intro k hk
    simpa [refresh_bov] using refresh_fold_get_uncovered tbl hk (keysOf bov) bov g
  · intro k pdf hmem hc
    simpa [refresh_bov] using refresh_fold_covered tbl hc (keysOf bov) hnd hmem bov g

/-- C5 witness: in the bag a = 1, b = 2 under a table covering only b with a
normal spec, a refresh leaves a unchanged and overwrites b with a drawn sample. -/
theorem spec_C5_witness :
    alistGet (refresh_bov tblB bagAB gZero).2.1 "a" = alistGet bagAB "a"
      ∧ ∃ g2, alistGet (refresh_bov tblB bagAB gZero).2.1 "b"
          = some (PyVal.num (get_random_sample g2 pdfNormal).1) := by
  have h := spec_C5_refresh_frame tblB bagAB gZero (by decide)
  exact ⟨h.2.1 "a" rfl, h.2.2.1 "b" pdfNormal (by decide) rfl⟩

/-- C6 (code-bug evidence): even with all required parameters supplied, the
poisson and wald samplers never draw from their families.  The source passes
the keyword `loc` to numpy's `Generator.poisson` (signature `poisson(lam,
size)`) and `Generator.wald` (signature `wald(mean, scale, size)`), neither of
which has such a parameter, so the call raises TypeError; `get_random_sample`
swallows it and returns the degraded sample 0 with no entropy consumed, in
contradiction with the claim (and with the samplers' own docstrings) that a
random sample from the given poisson/wald distribution is returned. -/
theorem spec_C6_poisson_wald_never_draw (g : RNG) (lam m s : ℚ) :
    sample_attempt g ⟨some "poisson", [("lambda", lam)]⟩
        = .error "TypeError: poisson got an unexpected keyword argument loc"
      ∧ get_random_sample g ⟨some "poisson", [("lambda", lam)]⟩ = (0, g)
      ∧ sample_attempt g ⟨some "wald", [("mean", m), ("scale", s)]⟩
        = .error "TypeError: wald got an unexpected keyword argument loc"
      ∧ get_random_sample g ⟨some "wald", [("mean", m), ("scale", s)]⟩ = (0, g) :=
  ⟨rfl, rfl, rfl, rfl⟩

/-- C7 counterexample: with bag x = 5 and an empty pdf table, a one-iteration
run leaves the bag with keys x and __builtins__: CPython `eval` inserted the
key __builtins__ into the bag it was given as the globals dict, so the key set
of the bag is NOT fixed across the run, refuting the claim that no operation
of the run adds a key. -/
theorem spec_C7_counterexample :
    keysOf bagX = ["x"]
      ∧ keysOf (simulate (fun _ => Except.ok (1 : ℚ)) [] bagX gZero 1).2.1
          = ["x", "__builtins__"]
      ∧ keysOf (simulate (fun _ => Except.ok (1 : ℚ)) [] bagX gZero 1).2.1
          ≠ keysOf bagX :=
  ⟨rfl, by decide, by decide⟩

/-- C7 (amended): refresh preserves the bag's key set exactly; the formula
evaluation inside simulate adds exactly one key, `__builtins__` (CPython eval's
globals-dict preparation), on the first iteration when it is absent, and after
that no operation of the run adds or removes any key: a run of at least one
iteration ends with the original keys followed by __builtins__, whether or not
the evaluator ever fails. -/
theorem spec_C7_keys_preserved_except_builtins (tbl : PdfTable) (bov : Bag) (g : RNG)
    (f : EvalFn) (n : ℕ) (hn : 0 < n)
    (hb : alistGet bov "__builtins__" = none) :
    keysOf (refresh_bov tbl bov g).2.1 = keysOf bov
      ∧ keysOf (simulate f tbl bov g n).2.1 = keysOf bov ++ ["__builtins__"] := by
  refine ⟨refresh_bov_keys tbl bov g, ?_⟩
  obtain ⟨m, rfl⟩ : ∃ m, n = m + 1 := ⟨n - 1, by omega⟩
  have hk1 : keysOf (refresh_bov tbl bov g).2.1 = keysOf bov := refresh_bov_keys tbl bov g
  have hb1 : alistGet (refresh_bov tbl bov g).2.1 "__builtins__" = none := by
    rw [alistGet_eq_none_iff] at hb ⊢
    rw [hk1]
    exact hb
  have hk2 : keysOf (py_globals (refresh_bov tbl bov g).2.1)
      = keysOf bov ++ ["__builtins__"] := by
    rw [py_globals_keys_of_absent hb1, hk1]
  have hp2 : alistGet (py_globals (refresh_bov tbl bov g).2.1) "__builtins__" ≠ none :=
    py_globals_builtins_present _
  have hloop : keysOf (sim_loop f tbl (m + 1) bov g []).2.1
      = keysOf bov ++ ["__builtins__"] := by
    simp only [sim_loop]
    rcases hf : f (py_globals (refresh_bov tbl bov g).2.1) with e | v
    · simpa using hk2
    · simp only []
      rw [sim_loop_keys_of_present f tbl m _ _ _ hp2, hk2]
  have hs := simulate_state f tbl bov g (m + 1)
  rw [show (simulate f tbl bov g (m + 1)).2.1 = (sim_loop f tbl (m + 1) bov g []).2.1
        from congrArg Prod.fst hs]
  exact hloop

/-- C7 witness: a concrete two-iteration run on bag x = 5 ends with keys
[x, __builtins__]; the refresh alone preserves the keys exactly. -/
theorem spec_C7_witness :
    keysOf (refresh_bov [] bagX gZero).2.1 = keysOf bagX
      ∧ keysOf (simulate (fun _ => Except.ok (1 : ℚ)) [] bagX gZero 2).2.1
          = keysOf bagX ++ ["__builtins__"] :=
  spec_C7_keys_preserved_except_builtins [] bagX gZero (fun _ => Except.ok 1) 2
    (by decide) (by decide)

/-- C8: when the external evaluator fails on some iteration (all earlier
iterations having produced scalars), the failure is not caught within the core:
simulate returns exactly that error to its caller and produces no
SimulationResult. -/
theorem spec_C8_eval_failure_propagates (f : EvalFn) (tbl : PdfTable) (bov : Bag)
    (g : RNG) (n k : ℕ) (e : String) (hk : k < n)
    (hok : ∀ i, i < k → ∃ v, f (run_state tbl (i + 1) (bov, g)).1 = .ok v)
    (herr : f (run_state tbl (k + 1) (bov, g)).1 = .error e) :
    (simulate f tbl bov g n).1 = .error e
      ∧ ∀ r, (simulate f tbl bov g n).1 ≠ .ok r := by
  have h1 : (simulate f tbl bov g n).1 = .error e :=
    simulate_of_loop_err (sim_loop_err f tbl e k n bov g [] hk hok herr)
  exact ⟨h1, fun r hc => by rw [h1] at hc; cases hc⟩

/-- C8 witness: an evaluator that fails immediately (as on an unbound variable)
makes a one-iteration run return its error and no result. -/
theorem spec_C8_witness :
    (simulate (fun _ => Except.error "NameError") [] bagX gZero 1).1
        = .error "NameError"
      ∧ ∀ r, (simulate (fun _ => Except.error "NameError") [] bagX gZero 1).1
        ≠ .ok r :=
  spec_C8_eval_failure_propagates (fun _ => Except.error "NameError") [] bagX gZero 1 0
    "NameError" (by decide) (fun i hi => absurd hi (by omega)) rfl

/-- C9: a run with iterations = 1 that completes returns a record whose
standard deviation is exactly 0 (its square is 0) and whose mean is the single
collected evaluation result. -/
theorem spec_C9_single_iteration (f : EvalFn) (tbl : PdfTable) (bov : Bag) (g : RNG)
    (r : SimResult) (hr : (simulate f tbl bov g 1).1 = .ok r) :
    r.sdSq = 0 ∧ ∃ v, (sim_loop f tbl 1 bov g []).1 = .ok [v] ∧ r.mean = v := by
  rcases hf : f (py_globals (refresh_bov tbl bov g).2.1) with e | v
  · have : (simulate f tbl bov g 1).1 = .error e :=
      simulate_of_loop_err (by simp [sim_loop, hf])
    rw [this] at hr
    cases hr
  · have hsl : (sim_loop f tbl 1 bov g []).1 = .ok [v] := by
      simp [sim_loop, hf]
    rw [simulate_of_loop_ok hsl] at hr
    cases hr
    exact ⟨np_var_singleton v, v, hsl, (np_mean_singleton v).symm ▸ rfl⟩

/-- C9 witness: the one-iteration run with formula "x" on bag x = 5 returns
mean 5 and (squared) sd 0. -/
theorem spec_C9_witness :
    SimResult.sdSq ⟨5, 0⟩ = 0
      ∧ ∃ v, (sim_loop evalX [] 1 bagX gZero []).1 = .ok [v]
          ∧ SimResult.mean ⟨5, 0⟩ = v :=
  spec_C9_single_iteration evalX [] bagX gZero ⟨5, 0⟩
    (by simp [simulate, sim_loop, refresh_bov, refresh_fold, keysOf, py_globals, alistGet,
          bagSet, evalX, np_mean, np_var, bagX, gZero])

/-- C10: for every pdf-table entry whose family name d is registered but which
omits some required parameter p of that family, drawing a sample does not raise
past the sampling boundary and is not surfaced as a distinct error:
`get_random_sample` returns the degraded sample 0 -- the very output produced
for an unregistered family -- the variable's bag entry is overwritten with 0,
and the enclosing refresh still reports success. -/
theorem spec_C10_missing_param_degraded (pdf : Pdf) (d p : String)
    (hname : pdf.name = some d) (hreg : d ∈ keysOf samplers)
    (hp : p ∈ requiredParams d) (hmiss : paramGet pdf p = none) :
    (∀ g : RNG, get_random_sample g pdf = (0, g))
      ∧ (∀ g : RNG, get_random_sample g pdf = get_random_sample g ⟨some "zeta", []⟩)
      ∧ (∀ (tbl : PdfTable) (bov : Bag) (g : RNG) (k : String),
          alistGet tbl k = some pdf → k ∈ keysOf bov →
          (refresh_bov tbl bov g).1 = true
            ∧ alistGet (refresh_bov tbl bov g).2.1 k = some (PyVal.num 0)) := by
  have h0 : ∀ g : RNG, get_random_sample g pdf = (0, g) := by
    intro g
    obtain ⟨e, he⟩ := sampler_missing_param_err d p hreg hp pdf hname hmiss g
    exact get_random_sample_of_err he
  refine ⟨h0, fun g => ?_, fun tbl bov g k hc hk => ⟨rfl, refresh_bov_zero hc h0 bov g hk⟩⟩
  rw [h0 g]
  rfl

/-- C10 witness: two concrete instances of the claim -- the normal spec with
mean but no sd, refreshed over the bag x = 5, and the gamma spec with shape but
no scale. -/
theorem spec_C10_witness :
    (get_random_sample gZero ⟨some "normal", [("mean", 3)]⟩ = (0, gZero)
      ∧ (refresh_bov [("x", ⟨some "normal", [("mean", 3)]⟩)] bagX gZero).1 = true
      ∧ alistGet (refresh_bov [("x", ⟨some "normal", [("mean", 3)]⟩)] bagX gZero).2.1 "x"
          = some (PyVal.num 0))
      ∧ get_random_sample gZero ⟨some "gamma", [("shape", 2)]⟩ = (0, gZero) := by
  have h1 := spec_C10_missing_param_degraded ⟨some "normal", [("mean", 3)]⟩ "normal" "sd"
    rfl (by decide) (by decide) rfl
  have h2 := spec_C10_missing_param_degraded ⟨some "gamma", [("shape", 2)]⟩ "gamma" "scale"
    rfl (by decide) (by decide) rfl
  have h12 := h1.2.2 [("x", ⟨some "normal", [("mean", 3)]⟩)] bagX gZero "x" rfl (by decide)
  exact ⟨⟨h1.1 gZero, h12.1, h12.2⟩, h2.1 gZero⟩

end MCS
